import Mathlib

/-!
# Verification of the CC_Monolith cart DAO (`CC_Monolith/cart/dao.py`)

This file shallowly embeds the cart data-access layer and proves the spec's
claims about it.

Embedding choices, all driven by the source:

* The SQLite table `carts (id INTEGER PRIMARY KEY AUTOINCREMENT, username TEXT
  NOT NULL UNIQUE, contents TEXT DEFAULT [], cost REAL DEFAULT 0)` is a `DB`:
  because `username` is UNIQUE, the table is a map from usernames to rows,
  together with the AUTOINCREMENT sequence counter (`nextId`).  `INSERT OR
  REPLACE` with the `id` column unlisted always inserts a fresh row whose id is
  drawn from the sequence, deleting any row that conflicts on `username`;
  `DELETE` does not touch the sequence.
* The `contents` TEXT column holds a string that `json.loads` either rejects or
  decodes to a Python value; we model the column by that outcome
  (`StoredText.invalid` for text that is not JSON, `StoredText.valid v` for
  text decoding to `v`).  `json.dumps` of a decodable value produces text that
  decodes back to it.  Decoded values (`Py`) cover the JSON-decodable Python
  values: `None`, booleans, integers, strings, lists, and string-keyed dicts
  (JSON object keys are always strings; JSON floats do not arise from any
  write performed by this module).
* Python exceptions are modelled with `Except PyError`.  In every operation all
  raising statements precede the single write (`INSERT OR REPLACE`), so an
  operation that raises leaves the database exactly as it found it;
  `finalState` makes that explicit.
* The `with_connection` decorator (connection per call, `try/finally` close) is
  modelled over a `ConnWorld` that tracks the open connection handles; the
  `finally` clause becomes a close on both the success and the error branch of
  the body.
-/

/-- Python exception kinds that `dao.py` can raise while handling a cart:
`json.JSONDecodeError` from `json.loads`, `AttributeError` from calling
`append`/`remove` on a non-list, `TypeError` from `in` on a non-container or a
string, and `ValueError` from `list.remove` when the value is absent. -/
inductive PyError where
  | jsonDecodeError : PyError
  | attributeError : PyError
  | typeError : PyError
  | valueError : PyError
  deriving DecidableEq

/-- JSON-decodable Python values: the possible results of `json.loads`. -/
inductive Py where
  | null : Py
  | bool : Bool → Py
  | num : Int → Py
  | str : String → Py
  | arr : List Py → Py
  | obj : List (String × Py) → Py

/-- The `contents` TEXT column, modelled by what `json.loads` does to it:
either the text is not valid JSON (`invalid`, `json.loads` raises) or it
decodes to a Python value (`valid v`). -/
inductive StoredText where
  | invalid : StoredText
  | valid : Py → StoredText

/-- One row of the `carts` table: surrogate `id` (AUTOINCREMENT), the
`contents` text column, and the `cost` REAL column. -/
structure Row where
  id : Nat
  contents : StoredText
  cost : Int

/-- The `carts` table: a map from usernames to rows (the UNIQUE constraint on
`username` makes the table such a map) plus the AUTOINCREMENT sequence value
`nextId` (the id the next inserted row will receive). -/
structure DB where
  rows : String → Option Row
  nextId : Nat

/-- The database right after `create_tables` ran on a fresh file: no rows,
AUTOINCREMENT sequence starting at 1. -/
def emptyDB : DB :=
  { rows := fun _ => none, nextId := 1 }

/-- `json.loads` applied to the stored text: raises `JSONDecodeError` on text
that is not JSON, otherwise returns the decoded value. -/
def json_loads (t : StoredText) : Except PyError Py :=
  match t with
  | .invalid => .error .jsonDecodeError
  | .valid v => .ok v

/-- `json.dumps` applied to a decodable Python value: always succeeds and
produces text that decodes back to the same value. -/
def json_dumps (v : Py) : StoredText :=
  .valid v

/-- Python `==` between the `int` argument `p` and a decoded JSON value.
`int == int` compares the values; `True`/`False` are the ints `1`/`0` in
Python; every other comparison is `False` (not an error). -/
def py_eq_int (p : Int) (v : Py) : Bool :=
  match v with
  | .num q => p = q
  | .bool b => p = (if b then 1 else 0)
  | _ => false

/-- Python `contents.append(product_id)`: only `list` has an `append` method;
on any other decoded value the attribute lookup raises `AttributeError`. -/
def py_append (v : Py) (p : Int) : Except PyError Py :=
  match v with
  | .arr xs => .ok (.arr (xs ++ [.num p]))
  | _ => .error .attributeError

/-- Python `product_id in contents`: membership test on a list (compares with
`==` against each element), key test on a dict (an `int` never equals a JSON
object's string key, so the result is `False`), and a `TypeError` on a string
(`in <string>` requires a string left operand) or any non-container. -/
def py_in (p : Int) (v : Py) : Except PyError Bool :=
  match v with
  | .arr xs => .ok (xs.any (py_eq_int p))
  | .obj _ => .ok false
  | _ => .error .typeError

/-- Python `list.remove(p)` on the underlying element list: removes the first
element equal to `p`, raising `ValueError` when no element is equal. -/
def list_remove (p : Int) : List Py → Except PyError (List Py)
  | [] => .error .valueError
  | x :: xs =>
    if py_eq_int p x then .ok xs
    else
      match list_remove p xs with
      | .ok ys => .ok (x :: ys)
      | .error e => .error e

/-- Python `contents.remove(product_id)`: only `list` has a `remove` method
(`AttributeError` otherwise); on a list it removes the first occurrence. -/
def py_remove (v : Py) (p : Int) : Except PyError Py :=
  match v with
  | .arr xs =>
    match list_remove p xs with
    | .ok ys => .ok (.arr ys)
    | .error e => .error e
  | _ => .error .attributeError

/-- `INSERT OR REPLACE INTO carts (username, contents, cost) VALUES (?, ?, ?)`:
any row conflicting on `username` is deleted and a fresh row is inserted; the
unlisted `id` column receives the next AUTOINCREMENT value, which is then
advanced. -/
def DB.insertOrReplace (db : DB) (username : String) (contents : StoredText)
    (cost : Int) : DB :=
  { rows := fun v =>
      if v = username then some ⟨db.nextId, contents, cost⟩ else db.rows v,
    nextId := db.nextId + 1 }

/-- `get_cart(username)`: `SELECT * FROM carts WHERE username = ?`; if no row is
found return the empty list, otherwise return `json.loads` of the stored
contents.  The `SELECT` writes nothing, so the database state is threaded
through unchanged on success. -/
def get_cart (db : DB) (username : String) : Except PyError (DB × Py) :=
  match db.rows username with
  | none => .ok (db, Py.arr [])
  | some cart =>
    match json_loads cart.contents with
    | .ok v => .ok (db, v)
    | .error e => .error e

/-- `add_to_cart(username, product_id)`: read the row for `username`; decode
its contents (the empty list when there is no row); `contents.append(product_id)`;
then `INSERT OR REPLACE` the row with the dumped contents and cost `0`. -/
def add_to_cart (db : DB) (username : String) (product_id : Int) :
    Except PyError DB :=
  match
    (match db.rows username with
     | some row => json_loads row.contents
     | none => .ok (Py.arr [])) with
  | .error e => .error e
  | .ok contents =>
    match py_append contents product_id with
    | .error e => .error e
    | .ok contents2 =>
      .ok (db.insertOrReplace username (json_dumps contents2) 0)

/-- `remove_from_cart(username, product_id)`: read the row for `username`;
return silently if there is none; decode its contents; if
`product_id in contents`, remove the first occurrence and `INSERT OR REPLACE`
the row with the dumped contents and cost `0`, else return silently. -/
def remove_from_cart (db : DB) (username : String) (product_id : Int) :
    Except PyError DB :=
  match db.rows username with
  | none => .ok db
  | some row =>
    match json_loads row.contents with
    | .error e => .error e
    | .ok contents =>
      match py_in product_id contents with
      | .error e => .error e
      | .ok true =>
        match py_remove contents product_id with
        | .error e => .error e
        | .ok contents2 =>
          .ok (db.insertOrReplace username (json_dumps contents2) 0)
      | .ok false => .ok db

/-- `delete_cart(username)`: `DELETE FROM carts WHERE username = ?`.  Deleting
never raises and never touches the AUTOINCREMENT sequence. -/
def delete_cart (db : DB) (username : String) : DB :=
  { db with rows := fun v => if v = username then none else db.rows v }

/-- The database state an operation leaves behind: its result on success, and
the input state on error — every raising statement in `dao.py` precedes the
single write, so a raising call leaves the stored state untouched. -/
def finalState (db : DB) (r : Except PyError DB) : DB :=
  match r with
  | .ok db2 => db2
  | .error _ => db

/-- The world seen by the `with_connection` decorator: the handles of the
currently open `sqlite3` connections (`openConns`, fresh handles numbered by
`nextConn`) together with the database file state. -/
structure ConnWorld where
  nextConn : Nat
  openConns : List Nat
  db : DB

/-- `connect('carts.db')`: opens a fresh connection to the database file and
returns its handle (schema creation on a fresh file is the `emptyDB` initial
state of `DB`, not a `ConnWorld` effect). -/
def ConnWorld.connect (w : ConnWorld) : ConnWorld × Nat :=
  ({ w with nextConn := w.nextConn + 1,
            openConns := w.openConns ++ [w.nextConn] },
   w.nextConn)

/-- `conn.close()`: the handle stops being open. -/
def ConnWorld.closeConn (w : ConnWorld) (c : Nat) : ConnWorld :=
  { w with openConns := w.openConns.erase c }

/-- The `with_connection` decorator: acquire a fresh connection, run the body
with it, and close the connection on the way out.  The source's `try/finally`
becomes a close on both branches of the body's outcome; a body that raises
has performed no write (every raising statement in `dao.py` precedes the
write), so the error branch keeps the database the body was given. -/
def with_connection {α : Type} (func : Nat → DB → Except PyError (DB × α))
    (w : ConnWorld) : ConnWorld × Except PyError α :=
  let acquired := w.connect
  let w1 := acquired.1
  let conn := acquired.2
  match func conn w1.db with
  | .ok (db2, result) => (ConnWorld.closeConn { w1 with db := db2 } conn, .ok result)
  | .error e => (w1.closeConn conn, .error e)

/-- The database states reachable from the freshly created schema by any
serial sequence of the four operations, counting both the states their
successful runs produce and the (unchanged) states their raising runs leave. -/
inductive Reachable : DB → Prop where
  | init : Reachable emptyDB
  | getStep {db db2 : DB} {u : String} {v : Py} :
      Reachable db → get_cart db u = .ok (db2, v) → Reachable db2
  | addStep {db : DB} (u : String) (p : Int) :
      Reachable db → Reachable (finalState db (add_to_cart db u p))
  | removeStep {db : DB} (u : String) (p : Int) :
      Reachable db → Reachable (finalState db (remove_from_cart db u p))
  | deleteStep {db : DB} (u : String) :
      Reachable db → Reachable (delete_cart db u)

/-- Serial sequence of `add_to_cart` calls for one user, stopping at the first
raised exception (spec-side glue describing a caller's call sequence). -/
def addAll (db : DB) (username : String) : List Int → Except PyError DB
  | [] => .ok db
  | p :: rest =>
    match add_to_cart db username p with
    | .ok db2 => addAll db2 username rest
    | .error e => .error e

/-- Removal of the first occurrence of `p` from a list of integers, written
from the spec's words for comparison with what `remove_from_cart` stores. -/
def removeFirstInt (p : Int) : List Int → List Int
  | [] => []
  | x :: xs => if x = p then xs else x :: removeFirstInt p xs

/-- The cart of `u` holds exactly the integer list `l`: either no row exists
and `l` is empty, or the row's contents decode to the JSON array of `l`. -/
def CartIs (db : DB) (u : String) (l : List Int) : Prop :=
  (db.rows u = none ∧ l = []) ∨
    ∃ r, db.rows u = some r ∧ r.contents = .valid (Py.arr (l.map Py.num))

/-- Every stored row's cost is zero. -/
def CostsZero (db : DB) : Prop :=
  ∀ u r, db.rows u = some r → r.cost = 0

/-! ## Helper lemmas -/

theorem insertOrReplace_rows_self (db : DB) (u : String) (t : StoredText)
    (c : Int) : (db.insertOrReplace u t c).rows u = some ⟨db.nextId, t, c⟩ := by
  simp [DB.insertOrReplace]

theorem insertOrReplace_rows_other (db : DB) {u v : String} (t : StoredText)
    (c : Int) (h : v ≠ u) : (db.insertOrReplace u t c).rows v = db.rows v := by
  simp [DB.insertOrReplace, h]

/-- A successful `add_to_cart` run produced its state by a single
`INSERT OR REPLACE` on the target username with cost `0`. -/
theorem add_to_cart_shape {db db2 : DB} {u : String} {p : Int}
    (h : add_to_cart db u p = .ok db2) :
    ∃ t, db2 = db.insertOrReplace u t 0 := by
  unfold add_to_cart at h
  cases hr : db.rows u with
  | none =>
    rw [hr] at h
    simp only [py_append, json_dumps] at h
    exact ⟨_, (Except.ok.inj h).symm⟩
  | some row =>
    rw [hr] at h
    simp only at h
    cases hc : row.contents with
    | invalid => rw [hc] at h; simp [json_loads] at h
    | valid v =>
      rw [hc] at h
      cases v <;> simp only [json_loads, py_append, json_dumps] at h <;>
        first
          | exact ⟨_, (Except.ok.inj h).symm⟩
          | cases h

/-- A successful `remove_from_cart` run either left the state untouched or
produced it by a single `INSERT OR REPLACE` on the target username with cost
`0`. -/
theorem remove_from_cart_shape {db db2 : DB} {u : String} {p : Int}
    (h : remove_from_cart db u p = .ok db2) :
    db2 = db ∨ ∃ t, db2 = db.insertOrReplace u t 0 := by
  unfold remove_from_cart at h
  cases hr : db.rows u with
  | none => rw [hr] at h; exact Or.inl (Except.ok.inj h).symm
  | some row =>
    rw [hr] at h
    simp only at h
    cases hc : row.contents with
    | invalid => rw [hc] at h; simp [json_loads] at h
    | valid v =>
      rw [hc] at h
      cases v with
      | arr xs =>
        simp only [json_loads, py_in] at h
        by_cases hmem : xs.any (py_eq_int p) = true
        · rw [hmem] at h
          simp only [py_remove] at h
          cases hrem : list_remove p xs with
          | ok ys =>
            rw [hrem] at h
            simp only [json_dumps] at h
            exact Or.inr ⟨_, (Except.ok.inj h).symm⟩
          | error e => rw [hrem] at h; cases h
        · rw [Bool.not_eq_true] at hmem
          rw [hmem] at h
          exact Or.inl (Except.ok.inj h).symm
      | obj fields =>
        simp only [json_loads, py_in] at h
        exact Or.inl (Except.ok.inj h).symm
      | null => simp [json_loads, py_in] at h
      | bool b => simp [json_loads, py_in] at h
      | num n => simp [json_loads, py_in] at h
      | str s => simp [json_loads, py_in] at h

/-! ## Claims -/

/-- C3: for every username `u` with no stored row, `get_cart u` returns the
empty sequence (and leaves the state unchanged) rather than failing or
signaling absence. -/
theorem get_cart_no_row_empty (db : DB) (u : String) (h : db.rows u = none) :
    get_cart db u = .ok (db, Py.arr []) := by
  simp [get_cart, h]

theorem get_cart_no_row_empty_witness :
    emptyDB.rows "carol" = none ∧
      get_cart emptyDB "carol" = .ok (emptyDB, Py.arr []) :=
  ⟨rfl, get_cart_no_row_empty emptyDB "carol" rfl⟩

/-- A completing `get_cart` hands back exactly the state it was given. -/
theorem get_cart_ok_state {db db2 : DB} {u : String} {v : Py}
    (h : get_cart db u = .ok (db2, v)) : db2 = db := by
  unfold get_cart at h
  cases hr : db.rows u with
  | none =>
    rw [hr] at h
    exact (congrArg Prod.fst (Except.ok.inj h)).symm
  | some cart =>
    rw [hr] at h
    simp only at h
    cases hc : cart.contents with
    | invalid => rw [hc] at h; simp [json_loads] at h
    | valid w =>
      rw [hc] at h
      simp only [json_loads] at h
      exact (congrArg Prod.fst (Except.ok.inj h)).symm

/-- C10: `get_cart` is read-only: whenever it completes, the database state it
hands back is exactly the state it was given, whether or not a row for the
username exists (and when it raises, no statement before the raise wrote). -/
theorem get_cart_readonly (db : DB) (u : String) (db2 : DB) (v : Py)
    (h : get_cart db u = .ok (db2, v)) : db2 = db :=
  get_cart_ok_state h

theorem get_cart_readonly_witness :
    (finalState emptyDB (add_to_cart emptyDB "alice" 7)) =
      (finalState emptyDB (add_to_cart emptyDB "alice" 7)) ∧
    get_cart (finalState emptyDB (add_to_cart emptyDB "alice" 7)) "alice" =
      .ok (finalState emptyDB (add_to_cart emptyDB "alice" 7),
        Py.arr [Py.num 7]) :=
  ⟨get_cart_readonly _ "alice" _ (Py.arr [Py.num 7]) rfl, rfl⟩

/-- C4: `delete_cart u` removes the row for `u` when one exists and is a
silent no-op (state exactly unchanged) otherwise; in either case a subsequent
`get_cart u` returns the empty sequence. -/
theorem delete_cart_spec (db : DB) (u : String) :
    (db.rows u = none → delete_cart db u = db) ∧
    (delete_cart db u).rows u = none ∧
    get_cart (delete_cart db u) u = .ok (delete_cart db u, Py.arr []) := by
  refine ⟨?_, ?_, ?_⟩
  · intro h
    cases db with
    | mk rows nid =>
      simp only [delete_cart]
      congr 1
      funext v
      by_cases hv : v = u
      · subst hv; simp only [if_pos rfl]; exact h.symm
      · simp [hv]
  · simp [delete_cart]
  · simp [get_cart, delete_cart]

theorem delete_cart_spec_witness :
    emptyDB.rows "dave" = none ∧ delete_cart emptyDB "dave" = emptyDB ∧
      (delete_cart emptyDB "dave").rows "dave" = none ∧
      get_cart (delete_cart emptyDB "dave") "dave" =
        .ok (delete_cart emptyDB "dave", Py.arr []) :=
  ⟨rfl, (delete_cart_spec emptyDB "dave").1 rfl,
    (delete_cart_spec emptyDB "dave").2.1, (delete_cart_spec emptyDB "dave").2.2⟩

/-- C9: for distinct usernames `u ≠ v`, each mutating operation on `u`
(`add_to_cart`, `remove_from_cart`, `delete_cart`) leaves the stored row for
`v` unchanged, also when the operation raises. -/
theorem mutators_frame (db : DB) (u v : String) (p : Int) (h : v ≠ u) :
    (finalState db (add_to_cart db u p)).rows v = db.rows v ∧
    (finalState db (remove_from_cart db u p)).rows v = db.rows v ∧
    (delete_cart db u).rows v = db.rows v := by
  refine ⟨?_, ?_, ?_⟩
  · cases ha : add_to_cart db u p with
    | ok db2 =>
      obtain ⟨t, rfl⟩ := add_to_cart_shape ha
      simp [finalState, insertOrReplace_rows_other db t 0 h]
    | error e => simp [finalState]
  · cases hm : remove_from_cart db u p with
    | ok db2 =>
      rcases remove_from_cart_shape hm with rfl | ⟨t, rfl⟩
      · simp [finalState]
      · simp [finalState, insertOrReplace_rows_other db t 0 h]
    | error e => simp [finalState]
  · simp [delete_cart, h]

theorem mutators_frame_witness :
    ("bob" : String) ≠ "alice" ∧
    ((finalState emptyDB (add_to_cart emptyDB "alice" 3)).rows "bob" =
        emptyDB.rows "bob" ∧
      (finalState emptyDB (remove_from_cart emptyDB "alice" 3)).rows "bob" =
        emptyDB.rows "bob" ∧
      (delete_cart emptyDB "alice").rows "bob" = emptyDB.rows "bob") :=
  ⟨by decide, mutators_frame emptyDB "alice" "bob" 3 (by decide)⟩

/-- When the cart of `u` holds exactly `l`, an `add_to_cart u p` call succeeds
and stores the JSON array of `l ++ [p]` by a single `INSERT OR REPLACE`. -/
theorem add_to_cart_of_cartIs {db : DB} {u : String} {l : List Int}
    (h : CartIs db u l) (p : Int) :
    add_to_cart db u p =
      .ok (db.insertOrReplace u (.valid (Py.arr ((l ++ [p]).map Py.num))) 0) := by
  rcases h with ⟨hn, rfl⟩ | ⟨r, hr, hc⟩
  · unfold add_to_cart
    rw [hn]
    simp [py_append, json_dumps]
  · unfold add_to_cart
    rw [hr]
    simp only
    rw [hc]
    simp [json_loads, py_append, json_dumps]

theorem cartIs_insertOrReplace (db : DB) (u : String) (l : List Int) :
    CartIs (db.insertOrReplace u (.valid (Py.arr (l.map Py.num))) 0) u l :=
  Or.inr ⟨⟨db.nextId, .valid (Py.arr (l.map Py.num)), 0⟩,
    insertOrReplace_rows_self db u _ 0, rfl⟩

/-- Serially adding `ps` to a cart holding `l` succeeds and leaves the cart
holding `l ++ ps`. -/
theorem addAll_cartIs (u : String) (ps : List Int) :
    ∀ (db : DB) (l : List Int), CartIs db u l →
      ∃ db2, addAll db u ps = .ok db2 ∧ CartIs db2 u (l ++ ps) := by
  induction ps with
  | nil => intro db l h; exact ⟨db, rfl, by simpa using h⟩
  | cons p rest ih =>
    intro db l h
    obtain ⟨db2, h1, h2⟩ :=
      ih (db.insertOrReplace u (.valid (Py.arr ((l ++ [p]).map Py.num))) 0)
        (l ++ [p]) (cartIs_insertOrReplace db u (l ++ [p]))
    refine ⟨db2, ?_, by simpa using h2⟩
    unfold addAll
    rw [add_to_cart_of_cartIs h p]
    exact h1

/-- When the cart of `u` holds exactly `l`, `get_cart u` returns the JSON
array of `l`. -/
theorem get_cart_of_cartIs {db : DB} {u : String} {l : List Int}
    (h : CartIs db u l) :
    get_cart db u = .ok (db, Py.arr (l.map Py.num)) := by
  rcases h with ⟨hn, rfl⟩ | ⟨r, hr, hc⟩
  · unfold get_cart
    rw [hn]
    simp
  · unfold get_cart
    rw [hr]
    simp only
    rw [hc]
    simp [json_loads]

/-- C1: starting from a state with no row for `u`, serially issuing
`add_to_cart u p` for each `p` in `ps` succeeds, and a subsequent
`get_cart u` returns exactly `ps` in call order, duplicates retained. -/
theorem addAll_round_trip (db : DB) (u : String) (ps : List Int)
    (h : db.rows u = none) :
    ∃ db2, addAll db u ps = .ok db2 ∧
      get_cart db2 u = .ok (db2, Py.arr (ps.map Py.num)) := by
  obtain ⟨db2, h1, h2⟩ := addAll_cartIs u ps db [] (Or.inl ⟨h, rfl⟩)
  exact ⟨db2, h1, by simpa using get_cart_of_cartIs h2⟩

theorem addAll_round_trip_witness :
    emptyDB.rows "alice" = none ∧
    ∃ db2, addAll emptyDB "alice" [10, 20, 10] = .ok db2 ∧
      get_cart db2 "alice" =
        .ok (db2, Py.arr [Py.num 10, Py.num 20, Py.num 10]) :=
  ⟨rfl, by simpa using addAll_round_trip emptyDB "alice" [10, 20, 10] rfl⟩

/-- Python membership of the int `p` in a decoded JSON array of ints agrees
with list membership. -/
theorem any_py_eq_int_map (p : Int) (l : List Int) :
    (l.map Py.num).any (py_eq_int p) = true ↔ p ∈ l := by
  induction l with
  | nil => simp
  | cons x xs ih =>
    simp [List.any_cons, py_eq_int, ih, List.mem_cons]

/-- `list.remove` on a decoded JSON array of ints removes exactly the first
occurrence, in the sense of `removeFirstInt`. -/
theorem list_remove_map (p : Int) (l : List Int) (h : p ∈ l) :
    list_remove p (l.map Py.num) = .ok ((removeFirstInt p l).map Py.num) := by
  induction l with
  | nil => cases h
  | cons x xs ih =>
    simp only [List.map_cons, list_remove, removeFirstInt, py_eq_int]
    by_cases hx : x = p
    · simp [hx]
    · have hne : ¬(p = x) := fun hpx => hx hpx.symm
      have hmem : p ∈ xs := by
        rcases List.mem_cons.mp h with h1 | h1
        · exact absurd h1.symm hx
        · exact h1
      simp [hne, hx, ih hmem]

/-- C2: when the row of `u` holds contents in which `p` occurs,
`remove_from_cart u p` removes exactly the first occurrence of `p` and
replaces the row, cost reset to zero; when `p` is absent from the contents, or
`u` has no row, the stored state comes back exactly unchanged with no error. -/
theorem remove_from_cart_spec :
    (∀ (db : DB) (u : String) (p : Int) (l : List Int) (r : Row),
      db.rows u = some r → r.contents = .valid (Py.arr (l.map Py.num)) →
      p ∈ l →
      ∃ db2, remove_from_cart db u p = .ok db2 ∧
        db2.rows u =
          some ⟨db.nextId, .valid (Py.arr ((removeFirstInt p l).map Py.num)), 0⟩) ∧
    (∀ (db : DB) (u : String) (p : Int) (l : List Int) (r : Row),
      db.rows u = some r → r.contents = .valid (Py.arr (l.map Py.num)) →
      p ∉ l → remove_from_cart db u p = .ok db) ∧
    (∀ (db : DB) (u : String) (p : Int),
      db.rows u = none → remove_from_cart db u p = .ok db) := by
  refine ⟨?_, ?_, ?_⟩
  · intro db u p l r hr hc hp
    refine ⟨db.insertOrReplace u
      (.valid (Py.arr ((removeFirstInt p l).map Py.num))) 0, ?_,
      insertOrReplace_rows_self db u _ 0⟩
    unfold remove_from_cart
    rw [hr]
    simp only
    rw [hc]
    simp only [json_loads, py_in, py_remove]
    rw [(any_py_eq_int_map p l).mpr hp, list_remove_map p l hp]
    simp [json_dumps]
  · intro db u p l r hr hc hp
    unfold remove_from_cart
    rw [hr]
    simp only
    rw [hc]
    simp only [json_loads, py_in]
    have : (l.map Py.num).any (py_eq_int p) = false := by
      rw [Bool.eq_false_iff]
      intro hcon
      exact hp ((any_py_eq_int_map p l).mp hcon)
    rw [this]
  · intro db u p h
    unfold remove_from_cart
    rw [h]

theorem remove_from_cart_spec_witness :
    (∃ db2,
      remove_from_cart
        (emptyDB.insertOrReplace "alice"
          (.valid (Py.arr [Py.num 10, Py.num 20, Py.num 10])) 0) "alice" 10 =
        .ok db2 ∧
      db2.rows "alice" =
        some ⟨2, .valid (Py.arr [Py.num 20, Py.num 10]), 0⟩) ∧
    remove_from_cart
      (emptyDB.insertOrReplace "alice"
        (.valid (Py.arr [Py.num 10, Py.num 20, Py.num 10])) 0) "alice" 99 =
      .ok (emptyDB.insertOrReplace "alice"
        (.valid (Py.arr [Py.num 10, Py.num 20, Py.num 10])) 0) ∧
    remove_from_cart emptyDB "bob" 5 = .ok emptyDB := by
  refine ⟨?_, ?_, ?_⟩
  · have h := remove_from_cart_spec.1
      (emptyDB.insertOrReplace "alice"
        (.valid (Py.arr [Py.num 10, Py.num 20, Py.num 10])) 0) "alice" 10
      [10, 20, 10] ⟨1, .valid (Py.arr [Py.num 10, Py.num 20, Py.num 10]), 0⟩
      rfl rfl (by decide)
    simpa [removeFirstInt] using h
  · exact remove_from_cart_spec.2.1
      (emptyDB.insertOrReplace "alice"
        (.valid (Py.arr [Py.num 10, Py.num 20, Py.num 10])) 0) "alice" 99
      [10, 20, 10] ⟨1, .valid (Py.arr [Py.num 10, Py.num 20, Py.num 10]), 0⟩
      rfl rfl (by decide)
  · exact remove_from_cart_spec.2.2 emptyDB "bob" 5 rfl

/-- C7: `add_to_cart u p` is an upsert keyed on username: with no row for `u`
it creates one containing `[p]`; with an existing row whose contents decode to
a JSON array, the entire contents value is replaced by the old array with `p`
appended (cost reset to zero); and there is an execution — two consecutive
adds for one user — in which the replace changes the row's surrogate id. -/
theorem add_to_cart_upsert :
    (∀ (db : DB) (u : String) (p : Int), db.rows u = none →
      ∃ db2, add_to_cart db u p = .ok db2 ∧
        db2.rows u = some ⟨db.nextId, .valid (Py.arr [Py.num p]), 0⟩) ∧
    (∀ (db : DB) (u : String) (p : Int) (l : List Py) (r : Row),
      db.rows u = some r → r.contents = .valid (Py.arr l) →
      ∃ db2, add_to_cart db u p = .ok db2 ∧
        db2.rows u = some ⟨db.nextId, .valid (Py.arr (l ++ [Py.num p])), 0⟩) ∧
    (∃ db1 db2 r1 r2,
      add_to_cart emptyDB "alice" 1 = .ok db1 ∧
      db1.rows "alice" = some r1 ∧
      add_to_cart db1 "alice" 2 = .ok db2 ∧
      db2.rows "alice" = some r2 ∧ r1.id ≠ r2.id) := by
  refine ⟨?_, ?_, ?_⟩
  · intro db u p h
    refine ⟨db.insertOrReplace u (.valid (Py.arr [Py.num p])) 0, ?_,
      insertOrReplace_rows_self db u _ 0⟩
    unfold add_to_cart
    rw [h]
    simp [py_append, json_dumps]
  · intro db u p l r hr hc
    refine ⟨db.insertOrReplace u (.valid (Py.arr (l ++ [Py.num p]))) 0, ?_,
      insertOrReplace_rows_self db u _ 0⟩
    unfold add_to_cart
    rw [hr]
    simp only
    rw [hc]
    simp [json_loads, py_append, json_dumps]
  · refine ⟨emptyDB.insertOrReplace "alice" (.valid (Py.arr [Py.num 1])) 0,
      (emptyDB.insertOrReplace "alice" (.valid (Py.arr [Py.num 1])) 0
        ).insertOrReplace "alice" (.valid (Py.arr [Py.num 1, Py.num 2])) 0,
      ⟨1, .valid (Py.arr [Py.num 1]), 0⟩,
      ⟨2, .valid (Py.arr [Py.num 1, Py.num 2]), 0⟩,
      rfl, rfl, rfl, rfl, by decide⟩

theorem add_to_cart_upsert_witness :
    (∃ db2, add_to_cart emptyDB "erin" 5 = .ok db2 ∧
      db2.rows "erin" = some ⟨1, .valid (Py.arr [Py.num 5]), 0⟩) ∧
    (∃ db2,
      add_to_cart
        (emptyDB.insertOrReplace "erin" (.valid (Py.arr [Py.num 5])) 0)
        "erin" 6 = .ok db2 ∧
      db2.rows "erin" = some ⟨2, .valid (Py.arr [Py.num 5, Py.num 6]), 0⟩) := by
  constructor
  · exact add_to_cart_upsert.1 emptyDB "erin" 5 rfl
  · have h := add_to_cart_upsert.2.1
      (emptyDB.insertOrReplace "erin" (.valid (Py.arr [Py.num 5])) 0) "erin" 6
      [Py.num 5] ⟨1, .valid (Py.arr [Py.num 5]), 0⟩ rfl rfl
    simpa using h

/-- C6 counterexample: a stored contents text that is valid JSON but not a
JSON array of integers (here the JSON number `5`) does not make `get_cart`
fail: `json.loads` succeeds and the decoded non-array value is returned
as-is, so the claim that every such state makes all three operations raise is
false. -/
theorem get_cart_nonarray_contents_ok :
    get_cart (emptyDB.insertOrReplace "alice" (.valid (Py.num 5)) 0) "alice" =
      .ok (emptyDB.insertOrReplace "alice" (.valid (Py.num 5)) 0, Py.num 5) :=
  rfl

/-- C6 amended: when the stored contents text cannot be decoded as JSON at
all, `json.loads` raises and each of `get_cart`, `add_to_cart` and
`remove_from_cart` fails with that decode error, with no sanitization or
recovery (contents that decode to JSON that merely is not an array of
integers can instead be returned as-is by `get_cart`). -/
theorem invalid_contents_all_ops_fail (db : DB) (u : String) (r : Row)
    (p : Int) (hr : db.rows u = some r) (hc : r.contents = .invalid) :
    get_cart db u = .error .jsonDecodeError ∧
    add_to_cart db u p = .error .jsonDecodeError ∧
    remove_from_cart db u p = .error .jsonDecodeError := by
  refine ⟨?_, ?_, ?_⟩
  · unfold get_cart
    rw [hr]
    simp only
    rw [hc]
    simp [json_loads]
  · unfold add_to_cart
    rw [hr]
    simp only
    rw [hc]
    simp [json_loads]
  · unfold remove_from_cart
    rw [hr]
    simp only
    rw [hc]
    simp [json_loads]

theorem invalid_contents_all_ops_fail_witness :
    get_cart (emptyDB.insertOrReplace "mallory" .invalid 0) "mallory" =
      .error .jsonDecodeError ∧
    add_to_cart (emptyDB.insertOrReplace "mallory" .invalid 0) "mallory" 1 =
      .error .jsonDecodeError ∧
    remove_from_cart (emptyDB.insertOrReplace "mallory" .invalid 0)
      "mallory" 1 = .error .jsonDecodeError :=
  invalid_contents_all_ops_fail (emptyDB.insertOrReplace "mallory" .invalid 0)
    "mallory" ⟨1, .invalid, 0⟩ 1 rfl rfl

theorem costsZero_insertOrReplace {db : DB} (h : CostsZero db) (u : String)
    (t : StoredText) : CostsZero (db.insertOrReplace u t 0) := by
  intro v r hr
  by_cases hv : v = u
  · subst hv
    rw [insertOrReplace_rows_self] at hr
    cases Option.some.inj hr
    rfl
  · rw [insertOrReplace_rows_other db t 0 hv] at hr
    exact h v r hr

theorem costsZero_delete {db : DB} (h : CostsZero db) (u : String) :
    CostsZero (delete_cart db u) := by
  intro v r hr
  simp only [delete_cart] at hr
  by_cases hv : v = u
  · simp [hv] at hr
  · simp only [hv, if_false] at hr
    exact h v r hr

theorem costsZero_finalState_add {db : DB} (h : CostsZero db) (u : String)
    (p : Int) : CostsZero (finalState db (add_to_cart db u p)) := by
  cases ha : add_to_cart db u p with
  | ok db2 =>
    obtain ⟨t, rfl⟩ := add_to_cart_shape ha
    simpa only [finalState] using costsZero_insertOrReplace h u t
  | error e => simpa only [finalState] using h

theorem costsZero_finalState_remove {db : DB} (h : CostsZero db) (u : String)
    (p : Int) : CostsZero (finalState db (remove_from_cart db u p)) := by
  cases ha : remove_from_cart db u p with
  | ok db2 =>
    rcases remove_from_cart_shape ha with rfl | ⟨t, rfl⟩
    · simpa only [finalState] using h
    · simpa only [finalState] using costsZero_insertOrReplace h u t
  | error e => simpa only [finalState] using h

/-- C5: in every state reachable by any serial sequence of the four
operations from the fresh schema, every stored row's cost is zero: the only
writes (`add_to_cart`'s and `remove_from_cart`'s `INSERT OR REPLACE`) always
store the literal cost `0`, never a value computed from the contents. -/
theorem reachable_cost_zero (db : DB) (h : Reachable db) : CostsZero db := by
  induction h with
  | init => intro u r hr; simp [emptyDB] at hr
  | getStep hre heq ih => rw [get_cart_ok_state heq]; exact ih
  | addStep u p hre ih => exact costsZero_finalState_add ih u p
  | removeStep u p hre ih => exact costsZero_finalState_remove ih u p
  | deleteStep u hre ih => exact costsZero_delete ih u

theorem reachable_cost_zero_witness :
    (finalState emptyDB (add_to_cart emptyDB "alice" 7)).rows "alice" =
      some ⟨1, .valid (Py.arr [Py.num 7]), 0⟩ ∧
    (⟨1, .valid (Py.arr [Py.num 7]), 0⟩ : Row).cost = 0 :=
  ⟨rfl,
    reachable_cost_zero (finalState emptyDB (add_to_cart emptyDB "alice" 7))
      (Reachable.addStep "alice" 7 Reachable.init) "alice"
      ⟨1, .valid (Py.arr [Py.num 7]), 0⟩ rfl⟩

theorem erase_append_singleton (n : Nat) :
    ∀ l : List Nat, n ∉ l → (l ++ [n]).erase n = l := by
  intro l
  induction l with
  | nil => intro h; simp
  | cons x xs ih =>
    intro h
    have hx : x ≠ n := fun he => h (he ▸ List.mem_cons_self x xs)
    have hxs : n ∉ xs := fun hm => h (List.mem_cons_of_mem x hm)
    simp only [List.cons_append, List.erase_cons, beq_iff_eq, hx, if_false]
    rw [ih hxs]

/-- C8: the `with_connection` wrapper around every operation acquires a fresh
connection at entry (the body runs with the newly opened handle) and releases
it on every exit path — after the wrapped call, whether the body returned or
raised, the set of open connections is exactly what it was before. -/
theorem with_connection_releases {α : Type}
    (func : Nat → DB → Except PyError (DB × α)) (w : ConnWorld)
    (h : w.nextConn ∉ w.openConns) :
    (w.connect.2 = w.nextConn ∧ w.connect.2 ∈ w.connect.1.openConns) ∧
    (with_connection func w).1.openConns = w.openConns := by
  refine ⟨⟨rfl, by simp [ConnWorld.connect]⟩, ?_⟩
  unfold with_connection
  simp only [ConnWorld.connect, ConnWorld.closeConn]
  cases hf : func w.nextConn w.db with
  | ok res =>
    cases res with
    | mk db2 result => exact erase_append_singleton w.nextConn w.openConns h
  | error e => exact erase_append_singleton w.nextConn w.openConns h

theorem with_connection_releases_witness :
    (with_connection (fun _ db =>
        match add_to_cart db "alice" 1 with
        | .ok d => .ok (d, ())
        | .error e => .error e)
      ⟨0, [], emptyDB⟩).1.openConns = ([] : List Nat) ∧
    (with_connection
        (fun _ _ => (.error .typeError : Except PyError (DB × Unit)))
      ⟨0, [], emptyDB⟩).1.openConns = ([] : List Nat) :=
  ⟨(with_connection_releases _ ⟨0, [], emptyDB⟩ (by decide)).2,
   (with_connection_releases _ ⟨0, [], emptyDB⟩ (by decide)).2⟩
